import Mathlib

/-!
Verification development for the Teneo-LPVP loan-classification and
curve-construction core.

The definitions below are a shallow embedding of the Python sources under
`src/`.  Conventions used throughout:

* pandas cell values (which may be NaN, strings, numbers or datetimes) are
  modelled by the inductive type `Cell`;
* floating-point rates are modelled by `ℚ`;
* datetime values are modelled by `Nat` date codes ordered chronologically
  (the sources compare dates either as `pd.Timestamp` values or as ISO-format
  strings, both of which order chronologically), except for the month-end
  grid generator, which needs a real calendar and uses the `MDate` structure;
* `pd.to_datetime(x, errors="coerce")` is modelled by `parseDateCell` /
  `maturityOf`: an already-datetime cell parses to itself and every other
  cell coerces to missing (string date parsing is not modelled; date-valued
  inputs enter the embedding as `Cell.date`);
* dataframes are lists of row structures, and every dataframe operation used
  by the sources (filtering, grouping, column assignment, concatenation) is
  translated to the corresponding list operation.
-/

/-- A pandas cell value: missing (NaN/NaT/None), a string, a number, or a
datetime (chronological `Nat` code). -/
inductive Cell where
  | na
  | str (s : String)
  | num (q : ℚ)
  | date (d : Nat)
deriving DecidableEq

/-- `pd.isna` on a cell. -/
def cellIsNa : Cell → Bool
  | Cell.na => true
  | _ => false

/-- ASCII lower-casing of a character, modelling Python `str.lower` on the
ASCII letters actually occurring in the sources' sentinel strings. -/
def charLower (c : Char) : Char :=
  if 'A' ≤ c ∧ c ≤ 'Z' then Char.ofNat (c.toNat + 32) else c

/-- Whitespace test used by the model of Python `str.strip`. -/
def isWhiteChar (c : Char) : Bool :=
  c = ' ' ∨ c = '\t' ∨ c = '\n' ∨ c = '\r'

/-- Model of Python `str.lower` (executable, unlike `String.toLower` whose
byte-level implementation does not reduce in the kernel). -/
def strLower (s : String) : String :=
  ⟨s.data.map charLower⟩

/-- Model of Python `str.strip`: drop leading and trailing whitespace. -/
def strTrim (s : String) : String :=
  ⟨((s.data.dropWhile isWhiteChar).reverse.dropWhile isWhiteChar).reverse⟩

/-! ### PercentNormalizer
`src/input_data/assumption_tables.py` (`_safe_convert_value`, numeric branch,
lines 108-114) and `src/input_data/load_loans.py` (`percentage_converter`,
lines 12-17). -/

/-- Numeric branch of `ExcelTableLoader._safe_convert_value`
(assumption_tables.py lines 108-114): a numeric value strictly between -1
and 1 and different from 0 is rescaled by 100, anything else is returned
unchanged. -/
def safe_convert_num (x : ℚ) : ℚ :=
  if -1 < x ∧ x < 1 ∧ x ≠ 0 then x * 100 else x

/-- `percentage_converter` from load_loans.py lines 12-17: a numeric value
with `0 <= value < 1` is rescaled by 100, anything else is returned
unchanged (the `pd.isna` branch returns the input unchanged and is subsumed
by the else branch for numeric inputs). -/
def percentage_converter (x : ℚ) : ℚ :=
  if 0 ≤ x ∧ x < 1 then x * 100 else x

/-! ### Fixed-rate curves
`src/input_data/fixed_rate_calculation.py`. -/

/-- Sentinel strings of `convert_rate_to_decimal`
(fixed_rate_calculation.py line 12). -/
def rate_sentinels : List String :=
  ["Not available", "Not applicable", "", "n/a", "na"]

/-- `convert_rate_to_decimal` (fixed_rate_calculation.py lines 7-22).
Missing values and sentinel strings give 0; a numeric value strictly greater
than 1 is divided by 100, otherwise kept.  String parsing (`float(...)` and
the `%`-suffix branch) is modelled only for unparseable strings, which raise
and fall to the `except` branch returning 0; numeric inputs enter the
embedding as `Cell.num`.  A datetime input makes `float(...)` raise, giving
0 as well. -/
def convert_rate_to_decimal : Cell → ℚ
  | Cell.na => 0
  | Cell.str s => if s ∈ rate_sentinels then 0 else 0
  | Cell.num q => if 1 < q then q / 100 else q
  | Cell.date _ => 0

/-- A row of a fixed-loan dataframe: the `Interest Rate (%)` cell and the
`Maturity Date` column (`none` models a missing/NaT maturity). -/
structure FixedLoan where
  rate : Cell
  maturity : Option Nat
deriving DecidableEq

/-- Per-row body of `process_fixed_loans_dataframe`
(fixed_rate_calculation.py lines 41-54): missing maturity gives an empty
curve, otherwise a single entry keyed by the maturity date. -/
def fixedTotalRates (l : FixedLoan) : List (Nat × ℚ) :=
  match l.maturity with
  | none => []
  | some m => [(m, convert_rate_to_decimal l.rate)]

/-! ### Floating-rate curves
`src/input_data/index_rate_calculation.py` (`process_floating_calculations`,
lines 20-47).  Curve dates are `Nat` codes; the source compares ISO date
strings, whose lexicographic order is the chronological order modelled
here. -/

/-- A row of a floating-loan dataframe: the `Index` column (`none` models a
missing index, which `groupby("Index")` skips), the `Maturity Date` column
and the `Interest Rate Margin (%)` value. -/
structure FloatLoan where
  index : Option String
  maturity : Option Nat
  margin : ℚ
deriving DecidableEq

/-- An assumption store: association list from index name to its
date-to-rate curve (an association list in insertion order), modelling
`assumptions_dict`. -/
def FloatStore : Type := List (String × List (Nat × ℚ))

/-- Per-row result of `process_floating_calculations`
(index_rate_calculation.py lines 25-41): rows start with an empty curve;
rows whose index is missing are skipped by `groupby`; an absent or empty
index curve leaves the empty curve (`if not index_rates: continue`); a
missing maturity leaves the empty curve; otherwise every curve entry with
date at most the maturity is kept, with the margin added to its rate. -/
def floatingTotalRates (store : FloatStore) (l : FloatLoan) : List (Nat × ℚ) :=
  match l.index with
  | none => []
  | some idx =>
    let indexRates := (List.lookup idx store).getD []
    if indexRates.isEmpty then []
    else
      match l.maturity with
      | none => []
      | some m =>
        (indexRates.filter (fun p => p.1 ≤ m)).map (fun p => (p.1, p.2 + l.margin))

/-- Named key-bound predicate, used to state that a curve entry's date is at
most a maturity date. -/
def fstLe (m : Nat) (p : Nat × ℚ) : Bool :=
  p.1 ≤ m

/-! ### Datatape segmentation
`src/input_data/datatape_segmentation.py`. -/

/-- The calculation-type mapping of `group_by_calculation_type`
(datatape_segmentation.py lines 14-32), in source order. -/
def calculation_types : List (String × String) :=
  [("Medium / Long Term Loan", "1"),
   ("RE Leasing", "1"),
   ("Overdraft", "Special"),
   ("Syndicated Loan", "1"),
   ("Factoring", "1"),
   ("Residential Mortgage", "1"),
   ("Credit Card", "Special"),
   ("Corporate/ Development Loan", "1"),
   ("Current Account", "Special"),
   ("Non RE Leasing", "1"),
   ("Discounted Bill/ Note", "2"),
   ("Consumer Loan", "1"),
   ("Other", "1"),
   ("Trade Finance", "1"),
   ("Restructured Loan", "1"),
   ("Uncalled Bank Guarantee", "Asset"),
   ("Called Bank Guarantee", "non-performing")]

/-- Bucket assignment of `group_by_calculation_type`
(datatape_segmentation.py lines 34-35): strip the loan-type string, map it
through `calculation_types`, and fill unmapped strings with `"Not Found"`
(the spec's `NotFound` bucket). -/
def calcBucketOfString (t : String) : String :=
  (List.lookup (strTrim t) calculation_types).getD "Not Found"

/-- Model of Python `str(...)` on a cell (`astype(str)`): strings are kept,
NaN stringifies to `"nan"`; numeric and datetime cells stringify to digit
strings, none of which occur in `calculation_types`, so any stand-in string
absent from that table is faithful. -/
def cellStr : Cell → String
  | Cell.str s => s
  | Cell.na => "nan"
  | Cell.num _ => "#num"
  | Cell.date _ => "#date"

/-- A row of the loan datatape, with the columns the segmentation stage
reads: `Unique Loan ID`, `Past Due Date`, `Maturity Date`, `Type of Loan`,
`Outstanding Balance After Adjustments` and `Interest Rate Type`. -/
structure SegLoan where
  loanId : String
  pastDue : Cell
  maturity : Cell
  loanType : Cell
  balance : Cell
  rateType : String
deriving DecidableEq

/-- The calculation bucket of a datatape row. -/
def typeOfCalculation (l : SegLoan) : String :=
  calcBucketOfString (cellStr l.loanType)

/-- Sentinel strings of `check_problematic_loans`
(datatape_segmentation.py line 46). -/
def problematic_values : List String :=
  ["not available", "not applicable", "", "nan", "null"]

/-- Exempt loan types of `check_problematic_loans`
(datatape_segmentation.py line 47). -/
def special_loan_types : List String :=
  ["Current Account", "Overdraft", "Credit Card"]

/-- A string cell whose lower-cased, stripped value is a sentinel
(`isinstance(x, str) and x.lower().strip() in problematic_values`). -/
def sentinelStr : Cell → Bool
  | Cell.str s => strTrim (strLower s) ∈ problematic_values
  | _ => false

/-- `maturity_problematic` (datatape_segmentation.py line 56). -/
def maturity_problematic (c : Cell) : Bool :=
  cellIsNa c || sentinelStr c

/-- `loan_type_not_special` (datatape_segmentation.py line 57). -/
def loan_type_not_special (c : Cell) : Bool :=
  !(match c with
    | Cell.str s => strTrim s ∈ special_loan_types
    | _ => false)

/-- `outstanding_problematic` (datatape_segmentation.py line 58): missing,
sentinel string, or numerically equal to zero (`x == 0` is false in Python
for strings and datetimes). -/
def outstanding_problematic : Cell → Bool
  | Cell.na => true
  | Cell.str s => strTrim (strLower s) ∈ problematic_values
  | Cell.num q => q = 0
  | Cell.date _ => false

/-- The conjunction tested at datatape_segmentation.py line 60. -/
def isProblematicLoan (l : SegLoan) : Bool :=
  maturity_problematic l.maturity
    && loan_type_not_special l.loanType
    && outstanding_problematic l.balance

/-- `check_problematic_loans` (datatape_segmentation.py lines 45-66): the
problematic rows of the PL dataset, in input order. -/
def check_problematic_loans (ds : List SegLoan) : List SegLoan :=
  ds.filter isProblematicLoan

/-- The problematic-loan removal of `process_loans_dataframe_segmentation`
(datatape_segmentation.py lines 136-139): rows whose `Unique Loan ID` is in
the problematic report are dropped. -/
def removeProblematicLoans (pl : List SegLoan) : List SegLoan :=
  let ids := (check_problematic_loans pl).map (fun l => l.loanId)
  pl.filter (fun l => !(ids.contains l.loanId))

/-- Model of `pd.to_datetime(x, errors="coerce")` on the `Past Due Date`
cell: a datetime parses to itself, everything else coerces to missing (the
subsequent `fillna(0)` sentinel). -/
def parsePastDue : Cell → Option Nat
  | Cell.date d => some d
  | _ => none

/-- PL split of `process_loans_dataframe_segmentation`
(datatape_segmentation.py lines 124-127): rows whose coerced past-due date
equals the fill sentinel are performing. -/
def pl_dataset (df : List SegLoan) : List SegLoan :=
  df.filter (fun l => (parsePastDue l.pastDue).isNone)

/-- NPL split: rows with a genuine coerced past-due date. -/
def npl_dataset (df : List SegLoan) : List SegLoan :=
  df.filter (fun l => !(parsePastDue l.pastDue).isNone)

/-- Performing loans retained after problematic-loan exclusion
(datatape_segmentation.py lines 136-139). -/
def retainedPL (df : List SegLoan) : List SegLoan :=
  removeProblematicLoans (pl_dataset df)

/-- `Interest Rate Type == "Floating"` (datatape_segmentation.py line 40). -/
def isFloatingLoan (l : SegLoan) : Bool :=
  l.rateType = "Floating"

/-- The output groups of `split_pls` (datatape_segmentation.py
lines 85-119): floating/fixed splits of numbered buckets 1-4, plus the
Asset and Special buckets. -/
structure PLGroups where
  f1 : List SegLoan
  f2 : List SegLoan
  f3 : List SegLoan
  f4 : List SegLoan
  nf1 : List SegLoan
  nf2 : List SegLoan
  nf3 : List SegLoan
  nf4 : List SegLoan
  assets : List SegLoan
  special : List SegLoan

/-- `split_pls` (datatape_segmentation.py lines 85-119): group the PL rows
by calculation bucket, split the numbered buckets by rate type, and keep the
Asset and Special buckets whole.  Buckets other than `"1"`-`"4"`, `"Asset"`
and `"Special"` are not collected. -/
def split_pls (pls : List SegLoan) : PLGroups :=
  let grp := fun (b : String) => pls.filter (fun l => typeOfCalculation l = b)
  { f1 := (grp "1").filter isFloatingLoan
    f2 := (grp "2").filter isFloatingLoan
    f3 := (grp "3").filter isFloatingLoan
    f4 := (grp "4").filter isFloatingLoan
    nf1 := (grp "1").filter (fun l => !isFloatingLoan l)
    nf2 := (grp "2").filter (fun l => !isFloatingLoan l)
    nf3 := (grp "3").filter (fun l => !isFloatingLoan l)
    nf4 := (grp "4").filter (fun l => !isFloatingLoan l)
    assets := grp "Asset"
    special := grp "Special" }

/-- Number of segmentation output groups containing a given row. -/
def memCount (g : PLGroups) (l : SegLoan) : Nat :=
  (if l ∈ g.f1 then 1 else 0) + (if l ∈ g.f2 then 1 else 0)
    + (if l ∈ g.f3 then 1 else 0) + (if l ∈ g.f4 then 1 else 0)
    + (if l ∈ g.nf1 then 1 else 0) + (if l ∈ g.nf2 then 1 else 0)
    + (if l ∈ g.nf3 then 1 else 0) + (if l ∈ g.nf4 then 1 else 0)
    + (if l ∈ g.assets then 1 else 0) + (if l ∈ g.special then 1 else 0)

/-! ### Month-end date grid
`src/assumption.py` (`generate_month_end_dates_list`, lines 135-151). -/

/-- A calendar date (proleptic Gregorian), as manipulated by
`pd.Timestamp.replace` and `pd.DateOffset`. -/
structure MDate where
  year : Nat
  month : Nat
  day : Nat
deriving DecidableEq

/-- Gregorian leap year. -/
def isLeapYear (y : Nat) : Bool :=
  (y % 4 = 0 && y % 100 ≠ 0) || y % 400 = 0

/-- Number of days of a month (the day reached by
`replace(day=1) + DateOffset(months=1) - DateOffset(days=1)`). -/
def daysInMonth (y m : Nat) : Nat :=
  if m = 2 then (if isLeapYear y then 29 else 28)
  else if m = 4 ∨ m = 6 ∨ m = 9 ∨ m = 11 then 30
  else 31

/-- Linear month index `year * 12 + (month - 1)`; for months in 1..12 its
order is the `(year, month)` lexicographic order used by the loop condition
at assumption.py line 146. -/
def monthIndex (d : MDate) : Nat :=
  d.year * 12 + (d.month - 1)

/-- Chronological key of a date: strictly monotone in `(monthIndex, day)`
for day values in 1..31. -/
def dateKey (d : MDate) : Nat :=
  monthIndex d * 32 + d.day

/-- The last calendar day of the month with linear index `mi`
(`replace(day=1) + DateOffset(months=1) - DateOffset(days=1)` at
assumption.py lines 139-140, 144, 149). -/
def monthEnd (mi : Nat) : MDate :=
  ⟨mi / 12, mi % 12 + 1, daysInMonth (mi / 12) (mi % 12 + 1)⟩

/-- The while loop at assumption.py lines 146-149: month ends for every
linear month index from `cur` through `hi` inclusive (empty when
`cur > hi`). -/
def monthEndRange (cur hi : Nat) : List MDate :=
  (List.range (hi + 1 - cur)).map (fun i => monthEnd (cur + i))

/-- `generate_month_end_dates_list` (assumption.py lines 135-151): start
with the valuation date; compute the valuation month's end; if it does not
strictly exceed the valuation date, advance one month (lines 142-144); then
append consecutive month ends while the stepped date's (year, month) has
not passed the maximum maturity date's (year, month). -/
def generate_month_end_dates_list (valuation maxMaturity : MDate) : List MDate :=
  let current := monthEnd (monthIndex valuation)
  let start :=
    if dateKey current ≤ dateKey valuation
    then monthIndex valuation + 1
    else monthIndex valuation
  valuation :: monthEndRange start (monthIndex maxMaturity)

/-- Validity of a calendar date as produced by pandas timestamps: month in
1..12 and day in 1..31. -/
def validMDate (d : MDate) : Prop :=
  1 ≤ d.month ∧ d.month ≤ 12 ∧ 1 ≤ d.day ∧ d.day ≤ 31

instance (d : MDate) : Decidable (validMDate d) := by
  unfold validMDate; infer_instance

/-- Named strict order on dates, used to state strict increase of the date
grid. -/
def dateLt (a b : MDate) : Prop :=
  dateKey a < dateKey b

instance (a b : MDate) : Decidable (dateLt a b) := by
  unfold dateLt; infer_instance

/-! ### Combined risk rates
`src/input_data/combined_risk.py`. -/

/-- A row of the merged long-form risk table `risk_df`
(combined_risk.py lines 69-79): one `(Type of Loan, Date)` pair with its
optional `Cost of Risk` and `Prepayment Risk` values (absent on one side of
the outer merge, or NaN in the source table, is `none`). -/
structure RiskRow where
  loanType : String
  date : Nat
  cost : Option ℚ
  prepay : Option ℚ
deriving DecidableEq

/-- Date order on risk rows, the sort key of
`risk_df.sort_values(["Type of Loan", "Date"])` within one loan type. -/
def riskRowLe (a b : RiskRow) : Prop :=
  a.date ≤ b.date

instance : DecidableRel riskRowLe := fun a b => Nat.decLe a.date b.date

instance : IsTotal RiskRow riskRowLe :=
  ⟨fun a b => Nat.le_total a.date b.date⟩

instance : IsTrans RiskRow riskRowLe :=
  ⟨fun _ _ _ h h2 => Nat.le_trans h h2⟩

/-- The aligned arrays stored per loan type in `risk_lookup`
(combined_risk.py lines 86-91): sorted dates, cost-of-risk values and
prepayment-risk values (the `date_strings` array is the same dates rendered
as strings and is represented by `dates` itself). -/
structure RiskData where
  dates : List Nat
  cost_risk : List ℚ
  prepay_risk : List ℚ
deriving DecidableEq

/-- The empty risk curve (`{"Date": [], "Cost of Risk": [], "Prepayment
Risk": []}`). -/
def emptyRiskData : RiskData :=
  ⟨[], [], []⟩

/-- Per-type part of `_create_optimized_risk_lookup`
(combined_risk.py lines 62-93): restrict the merged rows to one loan type,
sort them by date (a stable sort, like `sort_values`), and read off the
three aligned arrays with missing values filled by 0 (`fillna(0)`). -/
def create_optimized_risk_lookup (rows : List RiskRow) (t : String) : RiskData :=
  let sorted := List.insertionSort riskRowLe (rows.filter (fun r => r.loanType = t))
  ⟨sorted.map (fun r => r.date),
   sorted.map (fun r => r.cost.getD 0),
   sorted.map (fun r => r.prepay.getD 0)⟩

/-- Whether a loan type is a key of `risk_lookup`, i.e. occurs in the merged
risk table (`loan_type not in risk_lookup` tests at combined_risk.py
lines 113 and 162). -/
def hasRiskType (rows : List RiskRow) (t : String) : Bool :=
  rows.any (fun r => r.loanType = t)

/-- Boolean-mask selection `arr[mask]` on an array: keep the entries whose
mask bit is true. -/
def applyMask : List Bool → List ℚ → List ℚ
  | true :: bs, x :: xs => x :: applyMask bs xs
  | false :: bs, _ :: xs => applyMask bs xs
  | _, _ => []

/-- Boolean-mask selection on a `Nat` array. -/
def applyMaskN : List Bool → List Nat → List Nat
  | true :: bs, x :: xs => x :: applyMaskN bs xs
  | false :: bs, _ :: xs => applyMaskN bs xs
  | _, _ => []

/-- `_create_single_risk_json_fast` / per-loan body of
`_create_risk_rates_batch` (combined_risk.py lines 184-205, 210-234): with a
missing maturity all entries are used; otherwise the mask
`dates <= maturity_date` selects entries of all three aligned arrays. -/
def create_single_risk (maturity : Option Nat) (rd : RiskData) : RiskData :=
  match maturity with
  | none => rd
  | some m =>
    let mask := rd.dates.map (fun d => decide (d ≤ m))
    ⟨applyMaskN mask rd.dates, applyMask mask rd.cost_risk, applyMask mask rd.prepay_risk⟩

/-- The risk curve assigned to one loan of type `t` with the given coerced
maturity: the empty curve when the type is absent from the lookup, otherwise
the maturity-filtered lookup data. -/
def loan_risk_rates (rows : List RiskRow) (t : String) (maturity : Option Nat) : RiskData :=
  if hasRiskType rows t then create_single_risk maturity (create_optimized_risk_lookup rows t)
  else emptyRiskData

/-- The three aligned arrays of a risk curve zipped into rows, used to state
their pointwise correspondence. -/
def zippedRisk (rd : RiskData) : List (Nat × ℚ × ℚ) :=
  rd.dates.zip (rd.cost_risk.zip rd.prepay_risk)

/-- Named date-bound predicate on zipped risk entries. -/
def dateLeFst (m : Nat) (e : Nat × ℚ × ℚ) : Bool :=
  e.1 ≤ m

/-- A row of a combined-loan bucket as consumed by the risk-rate stage:
`Type of Loan`, the raw `Maturity Date` cell, and a stand-in for all other
columns. -/
structure CLoan where
  loanType : String
  maturity : Cell
  payload : Nat
deriving DecidableEq

/-- `pd.to_datetime(x, errors="coerce")` on the `Maturity Date` column
(combined_risk.py lines 103-104 and 133-134), as a cell: a datetime parses
to itself, everything else coerces to NaT. -/
def parseDateCell : Cell → Cell
  | Cell.date d => Cell.date d
  | _ => Cell.na

/-- The coerced maturity of a loan row as an optional date. -/
def maturityOf : Cell → Option Nat
  | Cell.date d => some d
  | _ => none

/-- The maturity-column conversion applied to a whole row. -/
def convertLoan (l : CLoan) : CLoan :=
  { l with maturity := parseDateCell l.maturity }

/-- An output row: the input row's columns plus the appended `risk_rates`
column. -/
structure RiskLoan where
  base : CLoan
  risk_rates : RiskData
deriving DecidableEq

/-- `_create_risk_rates_batch` or its absent-type fallback for the sub-frame
of one loan type (combined_risk.py lines 113-118): one risk curve per loan,
in sub-frame order. -/
def riskBatch (rows : List RiskRow) (t : String) (loans : List CLoan) : List RiskData :=
  if hasRiskType rows t then
    loans.map (fun l => create_single_risk (maturityOf l.maturity) (create_optimized_risk_lookup rows t))
  else
    loans.map (fun _ => emptyRiskData)

/-- Fuel-indexed recursion for `uniqueTypes`; the fuel is an upper bound on
the list length, so the structural recursion below computes the same list as
the unbounded recursion `unique (t :: ts) = t :: unique (ts.filter (≠ t))`. -/
def uniqueTypesAux : Nat → List String → List String
  | 0, _ => []
  | _, [] => []
  | fuel + 1, t :: ts => t :: uniqueTypesAux fuel (ts.filter (fun s => !(s = t : Bool)))

/-- Unique values of a list in order of first appearance, modelling
`Series.unique()` (combined_risk.py line 109). -/
def uniqueTypes (l : List String) : List String :=
  uniqueTypesAux l.length l

/-- The `risk_rates_list` built by `_process_loans_vectorized`
(combined_risk.py lines 107-120): batches per unique loan type, in order of
first appearance, concatenated. -/
def vectorizedRiskList (rows : List RiskRow) (loans : List CLoan) : List RiskData :=
  ((uniqueTypes (loans.map (fun l => l.loanType))).map
    (fun t => riskBatch rows t (loans.filter (fun l => l.loanType = t)))).flatten

/-- `_process_loans_vectorized` (combined_risk.py lines 96-124): convert the
maturity column, build the type-grouped `risk_rates_list`, and assign it
positionally as the `risk_rates` column of the (input-ordered) frame. -/
def process_loans_vectorized (rows : List RiskRow) (loans : List CLoan) : List RiskLoan :=
  let converted := loans.map convertLoan
  List.zipWith (fun l rr => ⟨l, rr⟩) converted (vectorizedRiskList rows converted)

/-- Per-row body of `_process_chunk` (combined_risk.py lines 158-167). -/
def perRowRisk (rows : List RiskRow) (l : CLoan) : RiskLoan :=
  ⟨l, loan_risk_rates rows l.loanType (maturityOf l.maturity)⟩

/-- `_process_chunk` (combined_risk.py lines 151-170). -/
def process_chunk (rows : List RiskRow) (chunk : List CLoan) : List RiskLoan :=
  chunk.map (perRowRisk rows)

/-- The chunk partition `[loans[i:i+cs] for i in range(0, len(loans), cs)]`
(combined_risk.py line 138). -/
def chunksOf (cs : Nat) (l : List CLoan) : List (List CLoan) :=
  (List.range ((l.length + cs - 1) / cs)).map (fun k => (l.drop (k * cs)).take cs)

/-- `_process_loans_parallel` (combined_risk.py lines 127-148): convert the
maturity column, cut the frame into chunks of size
`max(100, len // cpu_count)`, process each chunk row-by-row, and concatenate
the processed chunks in chunk-index order. -/
def process_loans_parallel (rows : List RiskRow) (loans : List CLoan) (cpuCount : Nat) : List RiskLoan :=
  let converted := loans.map convertLoan
  let cs := max 100 (converted.length / cpuCount)
  ((chunksOf cs converted).map (process_chunk rows)).flatten

/-! ## Helper lemmas -/

/-- A filter and its complementary filter partition a list's length. -/
theorem length_filter_add_length_filter_not {α : Type} (p : α → Bool) (l : List α) :
    (l.filter p).length + (l.filter (fun a => !(p a))).length = l.length := by
  induction l with
  | nil => rfl
  | cons x xs ih =>
    rw [List.filter_cons, List.filter_cons]
    cases hpx : p x <;> simp [hpx] <;> omega

/-- A successful association-list lookup returns one of the stored values. -/
theorem lookup_mem_snd : ∀ {l : List (String × String)} {k v : String},
    List.lookup k l = some v → v ∈ l.map Prod.snd := by
  intro l
  induction l with
  | nil => intro k v h; simp [List.lookup] at h
  | cons a t ih =>
    intro k v h
    rw [List.lookup] at h
    by_cases hk : k = a.1
    · simp [hk] at h
      simp [← h]
    · have hbeq : (k == a.1) = false := beq_false_of_ne hk
      rw [hbeq] at h
      simp only [List.map_cons, List.mem_cons]
      exact Or.inr (ih h)

/-- Every bucket produced by `calcBucketOfString` is a value of the
segmentation mapping or the fill value. -/
theorem calcBucket_codomain (t : String) :
    calcBucketOfString t ∈ ["1", "2", "Special", "Asset", "non-performing", "Not Found"] := by
  unfold calcBucketOfString
  cases h : List.lookup (strTrim t) calculation_types with
  | none => simp
  | some v =>
    have hv : v ∈ calculation_types.map Prod.snd := lookup_mem_snd h
    have hsub : ∀ x ∈ calculation_types.map Prod.snd,
        x ∈ ["1", "2", "Special", "Asset", "non-performing", "Not Found"] := by decide
    simpa using hsub v hv

/-! ## Claim C2 -/

/-- C2 counterexample: a fixed loan with nominal rate exactly 1 and a
present maturity date gets curve value 1, not 1/100, although the claim
requires division by 100 for every nominal rate that is at least 1
(`convert_rate_to_decimal` only rescales rates strictly greater than 1). -/
theorem fixed_rate_boundary_counterexample :
    fixedTotalRates ⟨Cell.num 1, some 0⟩ = [(0, 1)] ∧ ¬((1 : ℚ) = 1 / 100) := by
  constructor
  · decide
  · norm_num

/-- C2 amended: for a fixed loan with numeric nominal rate and a present
maturity date, `total_rates` is the single entry at the maturity date whose
value is the rate divided by 100 when the rate is strictly greater than 1
and the rate unchanged when it is at most 1; a fixed loan with a missing
maturity date gets an empty curve. -/
theorem fixed_total_rates_amended (q : ℚ) (m : Nat) (c : Cell) :
    (1 < q → fixedTotalRates ⟨Cell.num q, some m⟩ = [(m, q / 100)])
    ∧ (q ≤ 1 → fixedTotalRates ⟨Cell.num q, some m⟩ = [(m, q)])
    ∧ fixedTotalRates ⟨c, none⟩ = [] := by
  refine ⟨fun h => ?_, fun h => ?_, rfl⟩
  · simp [fixedTotalRates, convert_rate_to_decimal, h]
  · simp [fixedTotalRates, convert_rate_to_decimal, not_lt_of_le h]

/-- C2 amended, witness: the spec scenario nominal rate 5 with maturity
present yields the single entry 5/100 = 0.05. -/
theorem fixed_total_rates_amended_witness :
    fixedTotalRates ⟨Cell.num 5, some 3⟩ = [(3, (5 : ℚ) / 100)] :=
  (fixed_total_rates_amended 5 3 Cell.na).1 (by norm_num)

/-! ## Claim C4 -/

/-- C4 counterexample: the loan type "Called Bank Guarantee" is assigned the
bucket "non-performing", which is not one of the claimed buckets
{1, 2, 3, 4, Asset, Special, NotFound}. -/
theorem calculation_bucket_counterexample :
    calcBucketOfString "Called Bank Guarantee" = "non-performing"
    ∧ "non-performing" ∉ ["1", "2", "3", "4", "Asset", "Special", "Not Found", "NotFound"] := by
  constructor
  · decide
  · decide

/-- C4 amended: every loan-type string is assigned one of the buckets
{1, 2, 3, 4, Asset, Special, Not Found, non-performing} (the source spells
the NotFound bucket "Not Found"), and every loan-type string whose stripped
form is absent from the lookup table is assigned "Not Found". -/
theorem calculation_bucket_amended (t : String) :
    calcBucketOfString t ∈ ["1", "2", "3", "4", "Asset", "Special", "Not Found", "non-performing"]
    ∧ (List.lookup (strTrim t) calculation_types = none → calcBucketOfString t = "Not Found") := by
  constructor
  · have h := calcBucket_codomain t
    have hsub : ∀ x ∈ ["1", "2", "Special", "Asset", "non-performing", "Not Found"],
        x ∈ ["1", "2", "3", "4", "Asset", "Special", "Not Found", "non-performing"] := by decide
    exact hsub _ h
  · intro h
    unfold calcBucketOfString
    rw [h]
    rfl

/-- C4 amended, witness: the unmapped loan-type string "Zebra" is assigned
"Not Found", which is in the amended bucket set. -/
theorem calculation_bucket_amended_witness :
    calcBucketOfString "Zebra"
        ∈ ["1", "2", "3", "4", "Asset", "Special", "Not Found", "non-performing"]
    ∧ calcBucketOfString "Zebra" = "Not Found" :=
  ⟨(calculation_bucket_amended "Zebra").1, (calculation_bucket_amended "Zebra").2 (by decide)⟩

/-! ## Claim C9 -/

/-- C9 counterexample: the loan-loader percent normalizer
`percentage_converter` leaves the negative fraction -1/2 unchanged, although
-1/2 lies strictly inside (-1, 1) and is nonzero, so the claimed result
100 * (-1/2) = -50 is not returned. -/
theorem percentage_converter_negative_counterexample :
    percentage_converter (-(1 : ℚ) / 2) = -(1 : ℚ) / 2
    ∧ percentage_converter (-(1 : ℚ) / 2) ≠ (-(1 : ℚ) / 2) * 100
    ∧ (-1 < -(1 : ℚ) / 2 ∧ -(1 : ℚ) / 2 < 1 ∧ -(1 : ℚ) / 2 ≠ 0) := by
  refine ⟨?_, ?_, by norm_num⟩
  · norm_num [percentage_converter]
  · norm_num [percentage_converter]

/-- C9 amended: the assumption-table normalizer `safe_convert_num` returns
100 times its argument exactly on the nonzero numeric values strictly inside
(-1, 1) and its argument unchanged otherwise (including exactly 0), while
the loan-loader converter `percentage_converter` rescales only the values in
[0, 1), leaving every negative value (including negative fractions) and
every value at least 1 unchanged. -/
theorem percent_normalizer_amended (x : ℚ) :
    (-1 < x → x < 1 → x ≠ 0 → safe_convert_num x = x * 100)
    ∧ (x ≤ -1 ∨ 1 ≤ x ∨ x = 0 → safe_convert_num x = x)
    ∧ (0 ≤ x → x < 1 → percentage_converter x = x * 100)
    ∧ (x < 0 ∨ 1 ≤ x → percentage_converter x = x) := by
  refine ⟨fun h1 h2 h3 => ?_, fun h => ?_, fun h1 h2 => ?_, fun h => ?_⟩
  · simp [safe_convert_num, h1, h2, h3]
  · have : ¬(-1 < x ∧ x < 1 ∧ x ≠ 0) := by
      rcases h with h | h | h
      · exact fun hc => absurd hc.1 (not_lt_of_le h)
      · exact fun hc => absurd hc.2.1 (not_lt_of_le h)
      · exact fun hc => hc.2.2 h
    simp [safe_convert_num, this]
  · simp [percentage_converter, h1, h2]
  · have : ¬(0 ≤ x ∧ x < 1) := by
      rcases h with h | h
      · exact fun hc => absurd hc.1 (not_le_of_lt h)
      · exact fun hc => absurd hc.2 (not_lt_of_le h)
    simp [percentage_converter, this]

/-- C9 amended, witness: both normalizers rescale 0.14 to 14, and both leave
14 unchanged. -/
theorem percent_normalizer_amended_witness :
    safe_convert_num ((14 : ℚ) / 100) = ((14 : ℚ) / 100) * 100
    ∧ percentage_converter ((14 : ℚ) / 100) = ((14 : ℚ) / 100) * 100
    ∧ ((14 : ℚ) / 100) * 100 = 14
    ∧ safe_convert_num 14 = 14
    ∧ percentage_converter 14 = 14 :=
  ⟨(percent_normalizer_amended ((14 : ℚ) / 100)).1 (by norm_num) (by norm_num) (by norm_num),
   (percent_normalizer_amended ((14 : ℚ) / 100)).2.2.1 (by norm_num) (by norm_num),
   by norm_num,
   (percent_normalizer_amended 14).2.1 (Or.inr (Or.inl (by norm_num))),
   (percent_normalizer_amended 14).2.2.2 (Or.inr (by norm_num))⟩

/-! ## Claim C3 -/

/-- C3: for a floating loan with a registered index and a present maturity
date, an entry (d, r) is in `total_rates` exactly when the index curve has
the entry (d, r - margin) with d at most the maturity date; every key of
`total_rates` is at most the maturity date; a loan with a missing index or
missing maturity date, or whose index is absent from the store, gets an
empty curve. -/
theorem floating_total_rates_spec (store : FloatStore) (l : FloatLoan) (idx : String)
    (m d : Nat) (r : ℚ)
    (hidx : l.index = some idx) (hm : l.maturity = some m) :
    ((d, r) ∈ floatingTotalRates store l ↔
      ((d, r - l.margin) ∈ (List.lookup idx store).getD [] ∧ d ≤ m))
    ∧ (floatingTotalRates store l).all (fstLe m) = true
    ∧ (∀ l2 : FloatLoan, l2.index = none ∨ l2.maturity = none →
        floatingTotalRates store l2 = [])
    ∧ (∀ l2 : FloatLoan, ∀ idx2 : String, l2.index = some idx2 →
        List.lookup idx2 store = none → floatingTotalRates store l2 = []) := by
  obtain ⟨li, lm, mar⟩ := l
  simp only at hidx hm
  subst hidx
  subst hm
  refine ⟨?_, ?_, ?_, ?_⟩
  · by_cases he : ((List.lookup idx store).getD []).isEmpty = true
    · rw [List.isEmpty_iff] at he
      simp [floatingTotalRates, he]
    · rw [Bool.not_eq_true] at he
      simp only [floatingTotalRates, he, Bool.false_eq_true, if_false]
      constructor
      · intro hmem
        rw [List.mem_map] at hmem
        obtain ⟨a, ha, heq⟩ := hmem
        rw [List.mem_filter] at ha
        obtain ⟨hmem2, hle⟩ := ha
        have h1 : a.1 = d := congrArg Prod.fst heq
        have h2 : a.2 + mar = r := congrArg Prod.snd heq
        constructor
        · have ha2 : a = (d, r - mar) := by
            obtain ⟨a1, a2⟩ := a
            simp only [Prod.mk.injEq]
            simp only at h1 h2
            exact ⟨h1, by linarith⟩
          rwa [ha2] at hmem2
        · rw [← h1]
          exact of_decide_eq_true hle
      · rintro ⟨hmem, hle⟩
        rw [List.mem_map]
        refine ⟨(d, r - mar), ?_, ?_⟩
        · rw [List.mem_filter]
          exact ⟨hmem, decide_eq_true hle⟩
        · simp
  · by_cases he : ((List.lookup idx store).getD []).isEmpty = true
    · rw [List.isEmpty_iff] at he
      simp [floatingTotalRates, he]
    · rw [Bool.not_eq_true] at he
      simp only [floatingTotalRates, he, Bool.false_eq_true, if_false]
      rw [List.all_eq_true]
      intro x hx
      rw [List.mem_map] at hx
      obtain ⟨a, ha, heq⟩ := hx
      rw [List.mem_filter] at ha
      subst heq
      unfold fstLe
      exact ha.2
  · intro l2 h2
    obtain ⟨li2, lm2, mar2⟩ := l2
    simp only at h2
    rcases h2 with h2 | h2
    · subst h2
      rfl
    · subst h2
      cases hli : li2 with
      | none => rfl
      | some idx2 =>
        by_cases he : ((List.lookup idx2 store).getD []).isEmpty = true
        · rw [List.isEmpty_iff] at he
          simp [floatingTotalRates, he]
        · rw [Bool.not_eq_true] at he
          simp [floatingTotalRates, he]
  · intro l2 idx2 h2 hl
    obtain ⟨li2, lm2, mar2⟩ := l2
    simp only at h2
    subst h2
    simp [floatingTotalRates, hl]

/-- C3 witness: the spec scenario margin 2.00 with index rate -0.51 at a
curve date within maturity, instantiating the membership characterization at
the entry (date, 1.49). -/
theorem floating_total_rates_spec_witness :
    ((3, (149 : ℚ) / 100) ∈
        floatingTotalRates [("EUR3M", [(3, -51 / 100)])] ⟨some "EUR3M", some 5, 2⟩ ↔
      ((3, (149 : ℚ) / 100 - FloatLoan.margin ⟨some "EUR3M", some 5, 2⟩) ∈
          (List.lookup "EUR3M" [("EUR3M", [(3, -51 / 100)])]).getD [] ∧ 3 ≤ 5)) :=
  (floating_total_rates_spec [("EUR3M", [(3, -51 / 100)])] ⟨some "EUR3M", some 5, 2⟩
    "EUR3M" 5 3 ((149 : ℚ) / 100) rfl rfl).1

/-! ## Claim C5 -/

/-- C5 amended: when the performing loans carry pairwise-distinct loan IDs,
a PL loan is removed exactly when the three problematic conditions (missing
or sentinel maturity, non-exempt loan type, missing or sentinel or zero
balance) all hold, the problematic report contains exactly the loans
satisfying them, and the problematic count plus the retained count equals
the original PL count.  (The distinct-ID hypothesis is needed because the
source removes by `Unique Loan ID` membership.) -/
theorem problematic_partition_amended (pl : List SegLoan)
    (h : (pl.map (fun l => l.loanId)).Nodup) :
    (∀ l ∈ pl, (l ∈ removeProblematicLoans pl ↔ isProblematicLoan l = false)
      ∧ (l ∈ check_problematic_loans pl ↔ isProblematicLoan l = true))
    ∧ (check_problematic_loans pl).length + (removeProblematicLoans pl).length = pl.length := by
  have hinj := List.inj_on_of_nodup_map h
  have hkey : ∀ l ∈ pl,
      ((((check_problematic_loans pl).map (fun x => x.loanId)).contains l.loanId = true)
        ↔ isProblematicLoan l = true) := by
    intro l hl
    rw [List.elem_iff]
    constructor
    · intro hc
      rw [List.mem_map] at hc
      obtain ⟨l2, hl2, hid⟩ := hc
      rw [check_problematic_loans, List.mem_filter] at hl2
      have heq : l2 = l := hinj hl2.1 hl hid
      rw [← heq]
      exact hl2.2
    · intro hp
      rw [List.mem_map]
      refine ⟨l, ?_, rfl⟩
      rw [check_problematic_loans, List.mem_filter]
      exact ⟨hl, hp⟩
  have hre : removeProblematicLoans pl = pl.filter (fun x => !(isProblematicLoan x)) := by
    simp only [removeProblematicLoans]
    apply List.filter_congr
    intro x hx
    have hiff := hkey x hx
    cases hcon : (((check_problematic_loans pl).map (fun x => x.loanId)).contains x.loanId) with
    | false =>
      have hfx : isProblematicLoan x = false := by
        rw [← Bool.not_eq_true]
        intro hp
        rw [← hiff, hcon] at hp
        exact Bool.false_ne_true hp
      simp [hfx]
    | true =>
      have htx : isProblematicLoan x = true := hiff.mp hcon
      simp [htx]
  refine ⟨?_, ?_⟩
  · intro l hl
    constructor
    · rw [hre, List.mem_filter]
      constructor
      · rintro ⟨_, hb⟩
        rwa [Bool.not_eq_true'] at hb
      · intro hp
        exact ⟨hl, by rw [Bool.not_eq_true']; exact hp⟩
    · rw [check_problematic_loans, List.mem_filter]
      constructor
      · exact fun hx => hx.2
      · exact fun hp => ⟨hl, hp⟩
  · rw [hre, check_problematic_loans]
    exact length_filter_add_length_filter_not _ pl

/-- C5 amended, witness: a two-loan PL set with distinct IDs, one
problematic loan (missing maturity and balance, unexempt type) and one
retained loan, partitions as 1 + 1 = 2. -/
theorem problematic_partition_amended_witness :
    (check_problematic_loans
        [⟨"A", Cell.na, Cell.na, Cell.str "Zebra", Cell.na, "Fixed"⟩,
         ⟨"B", Cell.na, Cell.date 5, Cell.str "Zebra", Cell.num 10, "Fixed"⟩]).length
      + (removeProblematicLoans
        [⟨"A", Cell.na, Cell.na, Cell.str "Zebra", Cell.na, "Fixed"⟩,
         ⟨"B", Cell.na, Cell.date 5, Cell.str "Zebra", Cell.num 10, "Fixed"⟩]).length
      = (([⟨"A", Cell.na, Cell.na, Cell.str "Zebra", Cell.na, "Fixed"⟩,
         ⟨"B", Cell.na, Cell.date 5, Cell.str "Zebra", Cell.num 10, "Fixed"⟩] : List SegLoan)).length :=
  (problematic_partition_amended _ (by decide)).2

/-- C5 counterexample: two PL loans sharing the ID "A", of which only the
first is problematic.  The second is not problematic yet is removed from
further processing (removal is by ID), so the claimed iff fails and the
problematic count plus the retained count is 1 + 0, not 2. -/
theorem problematic_partition_counterexample :
    isProblematicLoan ⟨"A", Cell.na, Cell.date 5, Cell.str "Zebra", Cell.num 10, "Fixed"⟩ = false
    ∧ ⟨"A", Cell.na, Cell.date 5, Cell.str "Zebra", Cell.num 10, "Fixed"⟩ ∉
        removeProblematicLoans
          [⟨"A", Cell.na, Cell.na, Cell.str "Zebra", Cell.na, "Fixed"⟩,
           ⟨"A", Cell.na, Cell.date 5, Cell.str "Zebra", Cell.num 10, "Fixed"⟩]
    ∧ (check_problematic_loans
          [⟨"A", Cell.na, Cell.na, Cell.str "Zebra", Cell.na, "Fixed"⟩,
           ⟨"A", Cell.na, Cell.date 5, Cell.str "Zebra", Cell.num 10, "Fixed"⟩]).length
        + (removeProblematicLoans
          [⟨"A", Cell.na, Cell.na, Cell.str "Zebra", Cell.na, "Fixed"⟩,
           ⟨"A", Cell.na, Cell.date 5, Cell.str "Zebra", Cell.num 10, "Fixed"⟩]).length
        ≠ 2 := by
  refine ⟨by decide, by decide, by decide⟩

/-! ## Claim C6 -/

/-- C6 amended: a datatape row is NPL exactly when its past-due date
coerces to a genuine date (missing or unparseable values coerce to the
sentinel and give PL), PL otherwise; and each retained PL loan appears in
exactly one segmentation output group when its (unique) calculation bucket
is one of 1-4, Asset, Special, and in no output group otherwise (buckets
"Not Found" and "non-performing" are silently dropped by `split_pls`). -/
theorem segmentation_groups_amended (df : List SegLoan) (l : SegLoan) :
    (l ∈ npl_dataset df ↔ l ∈ df ∧ parsePastDue l.pastDue ≠ none)
    ∧ (l ∈ pl_dataset df ↔ l ∈ df ∧ parsePastDue l.pastDue = none)
    ∧ (l ∈ retainedPL df →
        memCount (split_pls (retainedPL df)) l =
          if typeOfCalculation l ∈ (["1", "2", "3", "4", "Asset", "Special"] : List String)
          then 1 else 0) := by
  refine ⟨?_, ?_, ?_⟩
  · rw [npl_dataset, List.mem_filter]
    simp [Option.isNone_iff_eq_none, Option.isSome_iff_ne_none]
  · rw [pl_dataset, List.mem_filter]
    simp [Option.isNone_iff_eq_none]
  · intro hl
    have hb : typeOfCalculation l ∈ ["1", "2", "Special", "Asset", "non-performing", "Not Found"] :=
      calcBucket_codomain (cellStr l.loanType)
    simp only [List.mem_cons, List.mem_singleton, List.not_mem_nil, or_false] at hb
    rcases hb with hc | hc | hc | hc | hc | hc <;>
      by_cases hf : l.rateType = "Floating" <;>
        simp [memCount, split_pls, List.mem_filter, hl, hc, hf, isFloatingLoan]

/-- C6 amended, witness: a retained PL loan of loan type "Other"
(bucket 1, floating) appears in exactly one output group. -/
theorem segmentation_groups_amended_witness :
    memCount
      (split_pls (retainedPL
        [⟨"L1", Cell.na, Cell.date 100, Cell.str "Other", Cell.num 100, "Floating"⟩]))
      ⟨"L1", Cell.na, Cell.date 100, Cell.str "Other", Cell.num 100, "Floating"⟩
    = if typeOfCalculation ⟨"L1", Cell.na, Cell.date 100, Cell.str "Other", Cell.num 100, "Floating"⟩
          ∈ (["1", "2", "3", "4", "Asset", "Special"] : List String)
      then 1 else 0 :=
  (segmentation_groups_amended
    [⟨"L1", Cell.na, Cell.date 100, Cell.str "Other", Cell.num 100, "Floating"⟩]
    ⟨"L1", Cell.na, Cell.date 100, Cell.str "Other", Cell.num 100, "Floating"⟩).2.2 (by decide)

/-- C6 counterexample: a performing, non-problematic loan whose loan type
"Zebra" is unmapped (bucket "Not Found") survives problematic-loan
exclusion yet appears in none of the segmentation output groups, so it is
dropped from further processing without being a problematic loan. -/
theorem segmentation_group_counterexample :
    ⟨"L1", Cell.na, Cell.date 100, Cell.str "Zebra", Cell.num 100, "Floating"⟩ ∈
      retainedPL [⟨"L1", Cell.na, Cell.date 100, Cell.str "Zebra", Cell.num 100, "Floating"⟩]
    ∧ memCount
        (split_pls (retainedPL
          [⟨"L1", Cell.na, Cell.date 100, Cell.str "Zebra", Cell.num 100, "Floating"⟩]))
        ⟨"L1", Cell.na, Cell.date 100, Cell.str "Zebra", Cell.num 100, "Floating"⟩ = 0 := by
  refine ⟨by decide, by decide⟩

/-! ## Claim C7 -/

/-- Mask selection by a predicate computed from the same underlying rows
equals a filter: the numpy idiom `arr[dates <= m]` on aligned arrays. -/
theorem applyMask_map {α : Type} (p : α → Bool) (g : α → ℚ) :
    ∀ l : List α, applyMask (l.map p) (l.map g) = (l.filter p).map g := by
  intro l
  induction l with
  | nil => rfl
  | cons x xs ih =>
    rw [List.map_cons, List.map_cons, List.filter_cons]
    cases hp : p x
    · simp [applyMask, ih]
    · simp [applyMask, ih]

/-- `applyMask_map` for `Nat`-valued arrays. -/
theorem applyMaskN_map {α : Type} (p : α → Bool) (g : α → Nat) :
    ∀ l : List α, applyMaskN (l.map p) (l.map g) = (l.filter p).map g := by
  intro l
  induction l with
  | nil => rfl
  | cons x xs ih =>
    rw [List.map_cons, List.map_cons, List.filter_cons]
    cases hp : p x
    · simp [applyMaskN, ih]
    · simp [applyMaskN, ih]

/-- C7: the per-type risk lookup is date-sorted and its three sequences are
aligned (equal lengths, with missing source values coerced to 0 by
construction); for a present maturity date the per-loan curve keeps exactly
the aligned entries whose date is at most the maturity; a missing maturity
keeps all entries; and a loan type absent from the lookup yields the empty
curve rather than an error. -/
theorem risk_lookup_filter_spec (rows : List RiskRow) (t : String) (m : Nat) (mat : Option Nat) :
    List.Sorted (fun a b => a ≤ b) (create_optimized_risk_lookup rows t).dates
    ∧ ((create_optimized_risk_lookup rows t).cost_risk.length
          = (create_optimized_risk_lookup rows t).dates.length
        ∧ (create_optimized_risk_lookup rows t).prepay_risk.length
          = (create_optimized_risk_lookup rows t).dates.length)
    ∧ zippedRisk (create_single_risk (some m) (create_optimized_risk_lookup rows t))
        = (zippedRisk (create_optimized_risk_lookup rows t)).filter (dateLeFst m)
    ∧ create_single_risk none (create_optimized_risk_lookup rows t)
        = create_optimized_risk_lookup rows t
    ∧ (hasRiskType rows t = false → loan_risk_rates rows t mat = emptyRiskData)
    ∧ (hasRiskType rows t = true →
        loan_risk_rates rows t mat = create_single_risk mat (create_optimized_risk_lookup rows t)) := by
  have hsort : List.Sorted riskRowLe
      (List.insertionSort riskRowLe (rows.filter (fun r => r.loanType = t))) :=
    List.sorted_insertionSort riskRowLe _
  refine ⟨?_, ⟨?_, ?_⟩, ?_, rfl, ?_, ?_⟩
  · simp only [create_optimized_risk_lookup]
    rw [List.Sorted, List.pairwise_map]
    exact hsort
  · simp [create_optimized_risk_lookup]
  · simp [create_optimized_risk_lookup]
  · simp only [create_optimized_risk_lookup, create_single_risk, zippedRisk, List.map_map]
    rw [applyMaskN_map, applyMask_map, applyMask_map]
    rw [List.zip_map', List.zip_map', List.zip_map', List.zip_map']
    rw [List.filter_map]
    rfl
  · intro h
    simp [loan_risk_rates, h]
  · intro h
    simp [loan_risk_rates, h]

/-- C7 witness: a two-entry type-"A" lookup filtered at maturity 5 keeps
exactly the aligned entries dated at most 5. -/
theorem risk_lookup_filter_spec_witness :
    zippedRisk (create_single_risk (some 5)
        (create_optimized_risk_lookup
          [⟨"A", 9, none, some 7⟩, ⟨"A", 3, some 5, none⟩, ⟨"B", 4, some 1, some 1⟩] "A"))
      = (zippedRisk (create_optimized_risk_lookup
          [⟨"A", 9, none, some 7⟩, ⟨"A", 3, some 5, none⟩, ⟨"B", 4, some 1, some 1⟩] "A")).filter
          (dateLeFst 5) :=
  (risk_lookup_filter_spec
    [⟨"A", 9, none, some 7⟩, ⟨"A", 3, some 5, none⟩, ⟨"B", 4, some 1, some 1⟩]
    "A" 5 (some 5)).2.2.1

/-! ## Claims C10 and C1 -/

/-- Members of the fuel-indexed unique list are members of the input. -/
theorem mem_uniqueTypesAux :
    ∀ (fuel : Nat) (l : List String) (u : String), u ∈ uniqueTypesAux fuel l → u ∈ l := by
  intro fuel
  induction fuel with
  | zero => intro l u hu; simp [uniqueTypesAux] at hu
  | succ fuel ih =>
    intro l u hu
    cases l with
    | nil => simp [uniqueTypesAux] at hu
    | cons t ts =>
      rw [uniqueTypesAux] at hu
      rcases List.mem_cons.mp hu with h | h
      · exact h ▸ List.mem_cons_self t ts
      · exact List.mem_cons_of_mem t (List.mem_of_mem_filter (ih _ u h))

/-- Grouping by the unique values partitions a list: the per-value counts
over the first-appearance unique list sum to the list length. -/
theorem sum_countP_uniqueTypesAux :
    ∀ (fuel : Nat) (ts : List String), ts.length ≤ fuel →
      ((uniqueTypesAux fuel ts).map (fun t => ts.countP (fun s => s = t))).sum = ts.length := by
  intro fuel
  induction fuel with
  | zero =>
    intro ts hts
    have : ts = [] := List.eq_nil_of_length_eq_zero (Nat.le_zero.mp hts)
    subst this
    rfl
  | succ fuel ih =>
    intro ts hts
    cases ts with
    | nil => rfl
    | cons t ts2 =>
      rw [uniqueTypesAux, List.map_cons, List.sum_cons]
      have hrestlen : (ts2.filter (fun s => !(s = t : Bool))).length ≤ fuel :=
        Nat.le_trans (List.length_filter_le _ _) (Nat.succ_le_succ_iff.mp hts)
      have htail : ((uniqueTypesAux fuel (ts2.filter (fun s => !(s = t : Bool)))).map
            (fun u => (t :: ts2).countP (fun s => s = u))).sum
          = (ts2.filter (fun s => !(s = t : Bool))).length := by
        rw [← ih _ hrestlen]
        apply congrArg
        apply List.map_congr_left
        intro u hu
        have hne : u ≠ t := by
          have := List.mem_filter.mp (mem_uniqueTypesAux _ _ _ hu) |>.2
          simpa using this
        rw [List.countP_cons]
        have hpt : (decide (t = u)) = false := by
          simp
          exact fun he => hne he.symm
        rw [hpt, if_neg Bool.false_ne_true, Nat.add_zero]
        rw [List.countP_filter]
        apply List.countP_congr
        intro s _
        cases hsu : (decide (s = u)) with
        | false => simp [hsu]
        | true =>
          have : s = u := of_decide_eq_true hsu
          subst this
          simp [hne]
      rw [htail, List.countP_cons]
      have hpt : (decide (t = t)) = true := by simp
      rw [hpt]
      simp only [if_true]
      have hpart := length_filter_add_length_filter_not (fun s => (s = t : Bool)) ts2
      rw [List.countP_eq_length_filter]
      simp only [List.length_cons]
      omega

/-- A risk batch assigns one curve per loan of the sub-frame. -/
theorem riskBatch_length (rows : List RiskRow) (t : String) (loans : List CLoan) :
    (riskBatch rows t loans).length = loans.length := by
  unfold riskBatch
  split <;> simp

/-- The type-grouped `risk_rates_list` has one entry per input row. -/
theorem vectorizedRiskList_length (rows : List RiskRow) (ls : List CLoan) :
    (vectorizedRiskList rows ls).length = ls.length := by
  unfold vectorizedRiskList
  rw [List.length_flatten, List.map_map]
  have h1 : ((uniqueTypes (ls.map (fun l => l.loanType))).map
        (List.length ∘ fun t => riskBatch rows t (ls.filter (fun l => l.loanType = t))))
      = (uniqueTypes (ls.map (fun l => l.loanType))).map
        (fun t => (ls.map (fun l => l.loanType)).countP (fun s => s = t)) := by
    apply List.map_congr_left
    intro t _
    show (riskBatch rows t (ls.filter (fun l => l.loanType = t))).length = _
    rw [riskBatch_length, ← List.countP_eq_length_filter, List.countP_map]
    rfl
  rw [h1]
  have h2 : (ls.map (fun l => l.loanType)).length = ls.length := List.length_map _ _
  rw [uniqueTypes, sum_countP_uniqueTypesAux _ _ le_rfl, h2]

/-- Assigning a column of matching length leaves the underlying rows
unchanged. -/
theorem zipWith_mk_base :
    ∀ (xs : List CLoan) (ys : List RiskData), ys.length = xs.length →
      (List.zipWith (fun l rr => RiskLoan.mk l rr) xs ys).map (fun r => r.base) = xs := by
  intro xs
  induction xs with
  | nil => intro ys _; rfl
  | cons x xs ih =>
    intro ys hlen
    cases ys with
    | nil => simp at hlen
    | cons y ys =>
      rw [List.zipWith_cons_cons, List.map_cons, ih ys (by simpa using hlen)]

/-- Concatenating the chunk partition in chunk-index order restores the
input frame, for any positive chunk size. -/
theorem flatten_chunksOf (cs : Nat) (hcs : 0 < cs) (l : List CLoan) :
    (chunksOf cs l).flatten = l := by
  suffices H : ∀ (n : Nat) (l : List CLoan), l.length ≤ n → (chunksOf cs l).flatten = l from
    H l.length l le_rfl
  intro n
  induction n with
  | zero =>
    intro l hl
    have : l = [] := List.eq_nil_of_length_eq_zero (Nat.le_zero.mp hl)
    subst this
    have h0 : (0 + cs - 1) / cs = 0 := Nat.div_eq_of_lt (by omega)
    simp [chunksOf, h0]
  | succ n ih =>
    intro l hl
    cases hnil : l with
    | nil =>
      have h0 : (0 + cs - 1) / cs = 0 := Nat.div_eq_of_lt (by omega)
      simp [chunksOf, h0]
    | cons a l2 =>
      rw [← hnil]
      have hpos : 1 ≤ l.length := by rw [hnil]; simp
      have hN : (l.length + cs - 1) / cs = (l.length - 1) / cs + 1 := by
        have h1 : l.length + cs - 1 = (l.length - 1) + cs := by omega
        rw [h1, Nat.add_div_right _ hcs]
      have hM : ((l.drop cs).length + cs - 1) / cs = (l.length - 1) / cs := by
        rw [List.length_drop]
        rcases le_or_lt l.length cs with hle | hlt
        · have e1 : l.length - cs = 0 := by omega
          rw [e1]
          have e2 : (0 + cs - 1) / cs = 0 := Nat.div_eq_of_lt (by omega)
          have e3 : (l.length - 1) / cs = 0 := Nat.div_eq_of_lt (by omega)
          rw [e2, e3]
        · have e1 : l.length - cs + cs - 1 = (l.length - cs - 1) + cs := by omega
          have e2 : l.length - 1 = (l.length - cs - 1) + cs := by omega
          rw [e1, e2, Nat.add_div_right _ hcs]
      have htailchunks : (List.range ((l.length - 1) / cs)).map
            (fun k => (l.drop ((k + 1) * cs)).take cs) = chunksOf cs (l.drop cs) := by
        rw [chunksOf, hM]
        apply List.map_congr_left
        intro k _
        rw [List.drop_drop]
        have hkc : cs + k * cs = (k + 1) * cs := by ring
        rw [hkc]
      have hdroplen : (l.drop cs).length ≤ n := by
        rw [List.length_drop]
        omega
      rw [chunksOf, hN, List.range_succ_eq_map, List.map_cons, List.map_map]
      have hcomp : ((fun k => (l.drop (k * cs)).take cs) ∘ Nat.succ)
          = fun k => (l.drop ((k + 1) * cs)).take cs := by
        funext k
        simp [Function.comp, Nat.succ_eq_add_one]
      rw [hcomp, List.flatten_cons, htailchunks, ih _ hdroplen]
      simp [List.take_append_drop]

/-- C10 amended: on both the vectorized and the parallel path (any CPU
count), the output has exactly the input's rows in the input's order with
only the `risk_rates` column appended, and every pre-existing column except
`Maturity Date` is unchanged; the `Maturity Date` column is re-parsed by
`pd.to_datetime(errors="coerce")`, so unparseable or missing maturities are
coerced to missing. -/
theorem risk_frame_amended (rows : List RiskRow) (loans : List CLoan) (cpu : Nat) :
    (process_loans_vectorized rows loans).map (fun r => r.base) = loans.map convertLoan
    ∧ (process_loans_parallel rows loans cpu).map (fun r => r.base) = loans.map convertLoan := by
  constructor
  · simp only [process_loans_vectorized]
    apply zipWith_mk_base
    rw [vectorizedRiskList_length]
  · simp only [process_loans_parallel]
    rw [List.map_flatten, List.map_map]
    have hcs : 0 < max 100 ((loans.map convertLoan).length / cpu) :=
      Nat.lt_of_lt_of_le (by norm_num) (le_max_left _ _)
    have hfun : ((List.map (fun r : RiskLoan => r.base)) ∘ (process_chunk rows)) = id := by
      funext c
      show (process_chunk rows c).map (fun r => r.base) = c
      unfold process_chunk
      rw [List.map_map]
      have hid : ((fun r : RiskLoan => r.base) ∘ perRowRisk rows) = id := by
        funext x
        rfl
      rw [hid, List.map_id]
    rw [hfun, List.map_id]
    exact flatten_chunksOf _ hcs _

/-- C10 counterexample: a loan whose raw `Maturity Date` cell holds the
unparseable string "not available" leaves the vectorized path with its
`Maturity Date` overwritten by NaT, so not every pre-existing field value is
unchanged. -/
theorem risk_frame_maturity_counterexample :
    (process_loans_vectorized [] [⟨"A", Cell.str "not available", 0⟩]).map (fun r => r.base)
      ≠ [⟨"A", Cell.str "not available", 0⟩]
    ∧ (process_loans_vectorized [] [⟨"A", Cell.str "not available", 0⟩]).map
        (fun r => r.base.maturity) = [Cell.na] := by
  refine ⟨by decide, by decide⟩

/-- C1: the sequential (vectorized) path and the parallel path differ on a
three-loan bucket with interleaved loan types [A, B, A].  The vectorized
path builds `risk_rates_list` in type-grouped order ([A-row 1, A-row 3,
B-row 2]) but assigns it positionally to rows 1, 2, 3, so the type-B row
receives the type-A curve and the last type-A row receives the empty curve;
the parallel path assigns each row its own curve.  This contradicts the
source's own comment "Assign risk_rates in original order"
(combined_risk.py line 122) and the spec's required path equivalence. -/
theorem risk_rate_paths_differ_on_interleaved_types :
    process_loans_vectorized [⟨"A", 1, some 5, some 7⟩]
        [⟨"A", Cell.date 10, 1⟩, ⟨"B", Cell.date 10, 2⟩, ⟨"A", Cell.date 10, 3⟩]
      ≠ process_loans_parallel [⟨"A", 1, some 5, some 7⟩]
        [⟨"A", Cell.date 10, 1⟩, ⟨"B", Cell.date 10, 2⟩, ⟨"A", Cell.date 10, 3⟩] 4
    ∧ (process_loans_vectorized [⟨"A", 1, some 5, some 7⟩]
        [⟨"A", Cell.date 10, 1⟩, ⟨"B", Cell.date 10, 2⟩, ⟨"A", Cell.date 10, 3⟩]).map
        (fun r => r.risk_rates)
      = [⟨[1], [5], [7]⟩, ⟨[1], [5], [7]⟩, emptyRiskData]
    ∧ (process_loans_parallel [⟨"A", 1, some 5, some 7⟩]
        [⟨"A", Cell.date 10, 1⟩, ⟨"B", Cell.date 10, 2⟩, ⟨"A", Cell.date 10, 3⟩] 4).map
        (fun r => r.risk_rates)
      = [⟨[1], [5], [7]⟩, emptyRiskData, ⟨[1], [5], [7]⟩] := by
  refine ⟨by decide, by decide, by decide⟩

/-! ## Claim C8 -/

/-- Every month has at least one day. -/
theorem daysInMonth_pos (y m : Nat) : 1 ≤ daysInMonth y m := by
  unfold daysInMonth
  split_ifs <;> omega

/-- Every month has at most 31 days. -/
theorem daysInMonth_le (y m : Nat) : daysInMonth y m ≤ 31 := by
  unfold daysInMonth
  split_ifs <;> omega

/-- A month end lies in its own month. -/
theorem monthIndex_monthEnd (mi : Nat) : monthIndex (monthEnd mi) = mi := by
  show (mi / 12) * 12 + (mi % 12 + 1 - 1) = mi
  omega

/-- Day lower bound of a month end. -/
theorem monthEnd_day_ge (mi : Nat) : 1 ≤ (monthEnd mi).day :=
  daysInMonth_pos _ _

/-- Day upper bound of a month end. -/
theorem monthEnd_day_le (mi : Nat) : (monthEnd mi).day ≤ 31 :=
  daysInMonth_le _ _

/-- A date in an earlier month has a smaller chronological key, for valid
day fields. -/
theorem dateKey_lt_of_monthIndex_lt {a b : MDate} (ha : a.day ≤ 31) (hb : 1 ≤ b.day)
    (h : monthIndex a < monthIndex b) : dateKey a < dateKey b := by
  unfold dateKey
  omega

/-- Month ends are strictly increasing in the month index. -/
theorem monthEnd_key_mono {mi mj : Nat} (h : mi < mj) :
    dateKey (monthEnd mi) < dateKey (monthEnd mj) :=
  dateKey_lt_of_monthIndex_lt (monthEnd_day_le _) (monthEnd_day_ge _)
    (by rw [monthIndex_monthEnd, monthIndex_monthEnd]; exact h)

/-- Membership in the month-end loop output: exactly the month ends with
index between the loop's start and bound. -/
theorem mem_monthEndRange {d : MDate} {cur hi : Nat} :
    d ∈ monthEndRange cur hi ↔ ∃ mi, cur ≤ mi ∧ mi ≤ hi ∧ d = monthEnd mi := by
  unfold monthEndRange
  rw [List.mem_map]
  constructor
  · rintro ⟨i, hi2, rfl⟩
    rw [List.mem_range] at hi2
    exact ⟨cur + i, Nat.le_add_right _ _, by omega, rfl⟩
  · rintro ⟨mi, h1, h2, rfl⟩
    refine ⟨mi - cur, ?_, ?_⟩
    · rw [List.mem_range]
      omega
    · congr 1
      omega

/-- The month-end loop output is strictly increasing. -/
theorem pairwise_monthEndRange (cur hi : Nat) : List.Pairwise dateLt (monthEndRange cur hi) := by
  unfold monthEndRange
  rw [List.pairwise_map]
  exact (List.pairwise_lt_range _).imp (fun hij => monthEnd_key_mono (by omega))

/-- The loop's start index (after the edge-case skip of assumption.py
lines 142-144) selects exactly the months whose month end lies strictly
after the valuation date. -/
theorem start_le_iff (v : MDate) (hv : validMDate v) (mi : Nat) :
    ((if dateKey (monthEnd (monthIndex v)) ≤ dateKey v
        then monthIndex v + 1 else monthIndex v) ≤ mi)
      ↔ dateKey v < dateKey (monthEnd mi) := by
  obtain ⟨h1, h2, h3, h4⟩ := hv
  by_cases hskip : dateKey (monthEnd (monthIndex v)) ≤ dateKey v
  · rw [if_pos hskip]
    constructor
    · intro hle
      exact dateKey_lt_of_monthIndex_lt h4 (monthEnd_day_ge mi)
        (by rw [monthIndex_monthEnd]; omega)
    · intro hlt
      by_contra hcon
      push_neg at hcon
      rcases Nat.lt_or_ge mi (monthIndex v) with hm | hm
      · have hx : dateKey (monthEnd mi) < dateKey v :=
          dateKey_lt_of_monthIndex_lt (monthEnd_day_le mi) h3
            (by rw [monthIndex_monthEnd]; omega)
        omega
      · have hmv : mi = monthIndex v := by omega
        subst hmv
        omega
  · rw [if_neg hskip]
    push_neg at hskip
    constructor
    · intro hle
      rcases Nat.eq_or_lt_of_le hle with he | hlt2
      · rw [← he]
        exact hskip
      · exact Nat.lt_trans hskip (monthEnd_key_mono hlt2)
    · intro hlt
      by_contra hcon
      push_neg at hcon
      have hx : dateKey (monthEnd mi) < dateKey v :=
        dateKey_lt_of_monthIndex_lt (monthEnd_day_le mi) h3
          (by rw [monthIndex_monthEnd]; omega)
      omega

/-- C8: for every valid valuation date, the generated grid begins with the
valuation date itself, is strictly increasing, and its subsequent elements
are exactly the month-end dates after the valuation date through the month
containing the maximum maturity date, inclusive. -/
theorem date_grid_spec (v mm : MDate) (hv : validMDate v) :
    (generate_month_end_dates_list v mm).head? = some v
    ∧ List.Pairwise dateLt (generate_month_end_dates_list v mm)
    ∧ (∀ d : MDate, d ∈ (generate_month_end_dates_list v mm).tail ↔
        ∃ mi : Nat, mi ≤ monthIndex mm ∧ dateKey v < dateKey (monthEnd mi) ∧ d = monthEnd mi) := by
  refine ⟨rfl, ?_, ?_⟩
  · show List.Pairwise dateLt (v :: monthEndRange _ (monthIndex mm))
    rw [List.pairwise_cons]
    constructor
    · intro d hd
      rw [mem_monthEndRange] at hd
      obtain ⟨mi, hcur, hhi, rfl⟩ := hd
      exact (start_le_iff v hv mi).mp hcur
    · exact pairwise_monthEndRange _ _
  · intro d
    show d ∈ monthEndRange _ (monthIndex mm) ↔ _
    rw [mem_monthEndRange]
    constructor
    · rintro ⟨mi, hcur, hhi, rfl⟩
      exact ⟨mi, hhi, (start_le_iff v hv mi).mp hcur, rfl⟩
    · rintro ⟨mi, hhi, hkey, rfl⟩
      exact ⟨mi, (start_le_iff v hv mi).mpr hkey, hhi, rfl⟩

/-- C8 witness: the spec scenario valuation 2020-09-05 with maximum
maturity 2021-01-15 produces 2020-09-05, 2020-09-30, 2020-10-31,
2020-11-30, 2020-12-31, 2021-01-31. -/
theorem date_grid_spec_witness :
    generate_month_end_dates_list ⟨2020, 9, 5⟩ ⟨2021, 1, 15⟩
      = [⟨2020, 9, 5⟩, ⟨2020, 9, 30⟩, ⟨2020, 10, 31⟩, ⟨2020, 11, 30⟩,
         ⟨2020, 12, 31⟩, ⟨2021, 1, 31⟩]
    ∧ (generate_month_end_dates_list ⟨2020, 9, 5⟩ ⟨2021, 1, 15⟩).head? = some ⟨2020, 9, 5⟩ :=
  ⟨by decide, (date_grid_spec ⟨2020, 9, 5⟩ ⟨2021, 1, 15⟩ (by decide)).1⟩
